import Mathlib

/-!
Verification of the HVATP (Hybrid Visual-Audio Transfer Protocol) core codecs:
a shallow embedding of the visual encoder/decoder and the OFDM audio encoder,
with theorems settling the specification claims about them.

Source files embedded: implementation/visual_encoder.py,
implementation/visual_decoder.py, implementation/audio_encoder.py.
Python integers become Nat/Int mirrored operation by operation
(floor division, truncating int(), masking); byte strings become List Nat;
numpy rasters become functions; real-valued audio samples become Real.
-/

namespace HVATP

/-- Python int.to_bytes(w, n, big): the w big-endian base-256 digits of n.
Faithful to Python for n < 256^w (Python raises OverflowError above that). -/
def toBytesBE : Nat → Nat → List Nat
  | 0, _ => []
  | w + 1, n => toBytesBE w (n / 256) ++ [n % 256]

/-- Python int.from_bytes(bs, big). -/
def fromBytesBE (bs : List Nat) : Nat := bs.foldl (fun a b => 256 * a + b) 0

/-- The 8 bits of a byte, most significant first: format(b, 08b) in the source. -/
def byteBits (b : Nat) : List Nat := (List.range 8).map (fun i => b / 2 ^ (7 - i) % 2)

/-- MSB-first bits of a module value of width bpm: format(module, 0{bpm}b). -/
def valueBits (bpm v : Nat) : List Nat := (List.range bpm).map (fun i => v / 2 ^ (bpm - 1 - i) % 2)

/-- int(bit_string, 2): most-significant bit first. -/
def bitsToNat (bits : List Nat) : Nat := bits.foldl (fun a b => 2 * a + b) 0

/-- Grouping a list into complete chunks of size k, dropping a trailing partial
chunk, as both _data_to_modules and _modules_to_data do. -/
def fullChunks (k : Nat) (l : List Nat) : List (List Nat) :=
  (List.range (l.length / k)).map (fun i => (l.drop (i * k)).take k)

/-! ## Visual encoder: metadata (visual_encoder.py, _encode_metadata)

The source builds bytearray(8), fills bytes 0..6 with frame_id (u24 BE),
total_frames (u16 BE) and data_length (u16 BE), computes
checksum = sum(metadata) & 0xFFFF over that 8-byte buffer (whose byte 7 is
still 0, so the sum is over the first 7 bytes), then the slice assignment
metadata[7:9] = checksum.to_bytes(2, big) extends the buffer to 9 bytes. -/

def encodeMetadata (frameId totalFrames dataLength : Nat) : List Nat :=
  let m7 := toBytesBE 3 frameId ++ toBytesBE 2 totalFrames ++ toBytesBE 2 dataLength
  m7 ++ toBytesBE 2 ((m7.sum + 0) % 65536)

/-! ## Reserved-area predicates (both files, _is_reserved_area) -/

namespace VisualEncoder

/-- visual_encoder.py lines 231-247, transcribed clause for clause.
Nat subtraction moduleCount - 10 truncates at 0, matching Python where a
negative bound makes x >= bound vacuously true for x >= 0. -/
def isReservedArea (moduleCount x y : Nat) : Bool :=
  if (x < 10 ∧ y < 10) ∨ (x ≥ moduleCount - 10 ∧ y < 10) ∨ (x < 10 ∧ y ≥ moduleCount - 10) then
    true
  else if x = 6 ∨ y = 6 then true
  else if x < 20 ∧ y ≥ 10 ∧ y < 18 then true
  else false

end VisualEncoder

namespace VisualDecoder

/-- visual_decoder.py lines 269-280, transcribed clause for clause. -/
def isReservedArea (expectedModuleCount x y : Nat) : Bool :=
  if (x < 10 ∧ y < 10) ∨ (x ≥ expectedModuleCount - 10 ∧ y < 10) ∨
      (x < 10 ∧ y ≥ expectedModuleCount - 10) then true
  else if x = 6 ∨ y = 6 then true
  else if x < 20 ∧ y ≥ 10 ∧ y < 18 then true
  else false

end VisualDecoder

/-- The reserved-region characterization as the claim words it (spec section 4.4):
three corner finders, timing row/column 6, and the metadata block with
10 <= x < 20 (the claim restricts x from below). For comparison only. -/
def claimReservedChar (M x y : Nat) : Bool :=
  if (x < 10 ∧ y < 10) ∨ (x ≥ M - 10 ∧ y < 10) ∨ (x < 10 ∧ y ≥ M - 10) then true
  else if x = 6 ∨ y = 6 then true
  else if 10 ≤ x ∧ x < 20 ∧ 10 ≤ y ∧ y < 18 then true
  else false

/-- The reserved-region characterization amended to the code: the metadata
clause is x < 20 (no lower bound on x), exactly as both sources test it. -/
def reservedSpecAmended (M x y : Nat) : Prop :=
  (x < 10 ∧ y < 10) ∨ (x ≥ M - 10 ∧ y < 10) ∨ (x < 10 ∧ y ≥ M - 10) ∨
    x = 6 ∨ y = 6 ∨ (x < 20 ∧ 10 ≤ y ∧ y < 18)

instance (M x y : Nat) : Decidable (reservedSpecAmended M x y) := by
  unfold reservedSpecAmended; infer_instance

/-! ## Metadata embedding (visual_encoder.py, _embed_metadata)

The source walks the 72 metadata bits MSB-first; for each bit it attempts to
write a 2x2 block of palette[bit] at (x_start, y_start), each single write
guarded by x_start+dx < 20 and y_start+dy < 18, then advances x_start by 2,
wrapping to x_start = 10, y_start += 2 when x_start >= 20. We record the
trace of performed writes: (bit index, x, y, palette index written). -/

structure MetaWrite where
  bitIndex : Nat
  x : Nat
  y : Nat
  colorIdx : Nat
deriving DecidableEq

/-- The guarded 2x2 block of writes for one bit, in source iteration order
(dx outer, dy inner). -/
def embedBitWrites (i xs ys bit : Nat) : List MetaWrite :=
  (List.range 2).flatMap (fun dx =>
    (List.range 2).filterMap (fun dy =>
      if xs + dx < 20 ∧ ys + dy < 18 then some ⟨i, xs + dx, ys + dy, bit⟩ else none))

/-- The main embedding loop over the bit stream, carrying (x_start, y_start). -/
def embedLoop : List Nat → Nat → Nat → Nat → List MetaWrite
  | [], _, _, _ => []
  | b :: rest, i, xs, ys =>
    embedBitWrites i xs ys b ++
      (if xs + 2 ≥ 20 then embedLoop rest (i + 1) 10 (ys + 2)
       else embedLoop rest (i + 1) (xs + 2) ys)

/-- The metadata bytes as a bit stream, MSB-first within each byte:
bit = (byte >> (7 - bit_pos)) & 1 in the source. -/
def metadataBits (md : List Nat) : List Nat := md.flatMap byteBits

/-- Trace of all writes performed by _embed_metadata, starting at (10, 10). -/
def embedMetadataWrites (md : List Nat) : List MetaWrite :=
  embedLoop (metadataBits md) 0 10 10

/-- Bit i of the packed metadata (0 when out of range). -/
def metaBit (md : List Nat) (i : Nat) : Nat := (metadataBits md).getD i 0

/-- The block of writes the embedding actually performs for bit i < 20:
a full 2x2 block at x = 10 + 2*(i % 5), y = 10 + 2*(i / 5). -/
def expectedBlock (md : List Nat) (i : Nat) : List MetaWrite :=
  [⟨i, 10 + 2 * (i % 5), 10 + 2 * (i / 5), metaBit md i⟩,
   ⟨i, 10 + 2 * (i % 5), 10 + 2 * (i / 5) + 1, metaBit md i⟩,
   ⟨i, 10 + 2 * (i % 5) + 1, 10 + 2 * (i / 5), metaBit md i⟩,
   ⟨i, 10 + 2 * (i % 5) + 1, 10 + 2 * (i / 5) + 1, metaBit md i⟩]

/-! ## Payload preparation and sequencing (visual_encoder.py, encode_frame
lines 187-195 and FrameSequenceEncoder.encode_data) -/

/-- encode_frame truncates oversized data to data_symbols and zero-pads
shorter data up to data_symbols; the same local variable data then feeds both
the RS encoder and len(data) in the metadata stamp. -/
def prepPayload (dataSymbols : Nat) (data : List Nat) : List Nat :=
  if data.length > dataSymbols then data.take dataSymbols
  else data ++ List.replicate (dataSymbols - data.length) 0

/-- The data_length value encode_frame stamps into the frame metadata:
len(data) is taken after the truncate-or-pad step. -/
def stampedDataLength (dataSymbols : Nat) (data : List Nat) : Nat :=
  (prepPayload dataSymbols data).length

/-- FrameSequenceEncoder.encode_data chunking: total_frames =
ceil(len / data_symbols) chunks of size data_symbols (last one shorter). -/
def chunkData (dataSymbols : Nat) (data : List Nat) : List (List Nat) :=
  (List.range ((data.length + dataSymbols - 1) / dataSymbols)).map
    (fun i => (data.drop (i * dataSymbols)).take dataSymbols)

/-- Error taxonomy of the spec (section 7): CapacityExceeded is the error the
spec says encode_frame signals for an oversized chunk. -/
inductive EncodeError
  | capacityExceeded
deriving DecidableEq

/-- The error behavior of the capacity check in encode_frame, lines 187-195:
the source has no raise path there (its docstring: data will be truncated if
too large); it always proceeds with the truncated-or-padded payload. -/
def encodeFrameCapacityCheck (dataSymbols : Nat) (data : List Nat) :
    Except EncodeError (List Nat) :=
  Except.ok (prepPayload dataSymbols data)

/-! ## Capacity accounting (_calculate_total_symbols in both files), using
Python-faithful Int floor division and float-to-int truncation (modelled over
the rationals: int(x) truncates toward zero). -/

inductive EncodingMode
  | HIGH_DENSITY
  | BALANCED
  | ROBUST
deriving DecidableEq

def EncodingMode.colors : EncodingMode → Nat
  | .HIGH_DENSITY => 8
  | .BALANCED => 4
  | .ROBUST => 2

def EncodingMode.bitsPerModule : EncodingMode → Nat
  | .HIGH_DENSITY => 3
  | .BALANCED => 2
  | .ROBUST => 1

/-- Shared body of _calculate_total_symbols: (M**2 - 100) modules times
bits-per-module, floor-divided by 8 (Python //). -/
def totalSymbolsZ (bitsPerModule M : Int) : Int :=
  Int.fdiv ((M * M - 100) * bitsPerModule) 8

/-- Python int(total * ecc), the truncation toward zero of the exact
rational product: for ecc = num/den (den > 0) this is the T-division of
total * num by den. -/
def rsParityCount (totalSymbols : Int) (ecc : Rat) : Int :=
  Int.tdiv (totalSymbols * ecc.num) (ecc.den : Int)

/-- Encoder parity count: RSCodec(int(total_symbols * error_correction_level))
with total_symbols from the encoder mode (visual_encoder.py lines 44-46, 84-94). -/
def encoderParitySymbols (mode : EncodingMode) (M : Int) (ecc : Rat) : Int :=
  rsParityCount (totalSymbolsZ (mode.bitsPerModule : Int) M) ecc

/-- Decoder parity count: _calculate_total_symbols in visual_decoder.py
hardcodes 2 bits/module (assume balanced mode), lines 52-59, regardless of
the color_mode later passed to decode_frame. -/
def decoderParitySymbols (M : Int) (ecc : Rat) : Int :=
  rsParityCount (totalSymbolsZ 2 M) ecc

/-- Nat version of _calculate_total_symbols for configurations with M >= 10
(where M^2 - 100 is nonnegative and Python // agrees with Nat division). -/
def calculateTotalSymbols (bitsPerModule moduleCount : Nat) : Nat :=
  (moduleCount ^ 2 - 100) * bitsPerModule / 8

/-! ## Finder patterns (visual_encoder.py, _add_finder_patterns)

The module raster is a function from (row, column) to an RGB triple. numpy
slice assignment of a whole source array into a rectangular slice succeeds
only when the source shape broadcasts into the slice shape; the center-finder
assignment at module_count > 150 writes finder[:5, :5] (shape (5,5,3)) into
frame[center-5:center+5, center-5:center+5] (shape (10,10,3)), which numpy
rejects with a ValueError. The Option result models that exception. -/

def RGB := Nat × Nat × Nat

def Frame := Nat → Nat → RGB

/-- The 10x10 finder pattern: white whole square, then black 8x8, white 6x6,
black 4x4 painted inside, so the innermost assignment wins. -/
def finderPattern (white black : RGB) (r c : Nat) : RGB :=
  if 3 ≤ r ∧ r < 7 ∧ 3 ≤ c ∧ c < 7 then black
  else if 2 ≤ r ∧ r < 8 ∧ 2 ≤ c ∧ c < 8 then white
  else if 1 ≤ r ∧ r < 9 ∧ 1 ≤ c ∧ c < 9 then black
  else white

/-- Assign src into the h x w rectangle of f whose top-left module is
(row y0, column x0). -/
def assignRegion (f : Frame) (y0 x0 h w : Nat) (src : Nat → Nat → RGB) : Frame :=
  fun y x =>
    if y0 ≤ y ∧ y < y0 + h ∧ x0 ≤ x ∧ x < x0 + w then src (y - y0) (x - x0) else f y x

/-- numpy broadcast rule for assigning an array of shape src into a slice of
shape tgt: align shapes at the trailing axes; every source dimension must
equal the target dimension or be 1. -/
def numpyCanBroadcast (src tgt : List Nat) : Bool :=
  decide (src.length ≤ tgt.length) &&
    (src.reverse.zip tgt.reverse).all (fun p => p.1 = p.2 || p.1 = 1)

/-- _add_finder_patterns: three 10x10 corner assignments always succeed; for
module_count > 150 the source then assigns the half-size copy
finder[:pattern_size//2, :pattern_size//2] into the full-size central slice
frame[center-offset:center+offset, center-offset:center+offset] with
offset = pattern_size // 2 = 5, whose shapes do not broadcast. -/
def addFinderPatterns (M : Nat) (f : Frame) (white black : RGB) : Option Frame :=
  let finder := finderPattern white black
  let f1 := assignRegion f 0 0 10 10 finder
  let f2 := assignRegion f1 0 (M - 10) 10 10 finder
  let f3 := assignRegion f2 (M - 10) 0 10 10 finder
  if 150 < M then
    let center := M / 2
    let offset := 5
    let tgtShape : List Nat :=
      [center + offset - (center - offset), center + offset - (center - offset), 3]
    let srcShape : List Nat := [5, 5, 3]
    if numpyCanBroadcast srcShape tgtShape then
      some (assignRegion f3 (center - offset) (center - offset) 5 5 finder)
    else none
  else some f3

/-! ## Reed-Solomon outer code over GF(2^8)

Modelled from the spec: the reedsolo RSCodec dependency is not part of the
repository sources, so its behavior is taken from spec section 4.1 — the
standard systematic RS construction over GF(2^8) with primitive polynomial
0x11D, generator polynomial the product of (x - alpha^i) for i below
parity_symbols (alpha = 2), encode appending the remainder of
message * x^nsym divided by the generator, and decode of an unerrored
codeword (all syndromes zero) returning the message bytes unchanged. Error
correction beyond the noise-free path is not modelled; the claims settled
here only exercise the noise-free channel. -/

/-- One Russian-peasant step sequence for multiplication in GF(2^8) modulo
x^8 + x^4 + x^3 + x^2 + 1 (0x11D = 285): 8 rounds of shift-and-xor. -/
def gfMulAux : Nat → Nat → Nat → Nat → Nat
  | 0, _, _, acc => acc
  | k + 1, a, b, acc =>
    gfMulAux k (a / 2) (if b * 2 ≥ 256 then Nat.xor (b * 2) 285 else b * 2)
      (if a % 2 = 1 then Nat.xor acc b else acc)

/-- Multiplication in GF(2^8). -/
def gfMul (a b : Nat) : Nat := gfMulAux 8 a b 0

/-- Powers of a field element. -/
def gfPow (a : Nat) : Nat → Nat
  | 0 => 1
  | n + 1 => gfMul a (gfPow a n)

/-- Polynomial product over GF(2^8), coefficient lists leading-first. -/
def polyMulGF (p q : List Nat) : List Nat :=
  (List.range (p.length + q.length - 1)).map (fun k =>
    (List.range (k + 1)).foldl (fun acc i => Nat.xor acc (gfMul (p.getD i 0) (q.getD (k - i) 0))) 0)

/-- Generator polynomial: product of (x - alpha^i) for i < nsym, alpha = 2. -/
def rsGenerator : Nat → List Nat
  | 0 => [1]
  | n + 1 => polyMulGF (rsGenerator n) [1, gfPow 2 n]

/-- Xor the second list into the leading entries of the first. -/
def xorLeading : List Nat → List Nat → List Nat
  | xs, [] => xs
  | [], _ => []
  | x :: xs, y :: ys => Nat.xor x y :: xorLeading xs ys

/-- steps rounds of synthetic long division by the monic generator gen:
cancel the leading coefficient, xor the scaled generator tail into the rest. -/
def rsDivLoop (gen : List Nat) : Nat → List Nat → List Nat
  | 0, buf => buf
  | k + 1, buf =>
    match buf with
    | [] => []
    | c :: rest =>
      rsDivLoop gen k (if c = 0 then rest else xorLeading rest ((gen.drop 1).map (gfMul c)))

/-- Systematic RS encode: message followed by the nsym parity bytes, the
remainder of message * x^nsym modulo the generator polynomial. -/
def rsEncodeMsg (nsym : Nat) (msg : List Nat) : List Nat :=
  msg ++ rsDivLoop (rsGenerator nsym) msg.length (msg ++ List.replicate nsym 0)

/-- Horner evaluation of a leading-first polynomial at x in GF(2^8). -/
def gfPolyEval (p : List Nat) (x : Nat) : Nat :=
  p.foldl (fun acc c => Nat.xor (gfMul acc x) c) 0

/-- All nsym syndromes of the received word vanish. -/
def rsSyndromesZero (nsym : Nat) (received : List Nat) : Bool :=
  (List.range nsym).all (fun i => gfPolyEval received (gfPow 2 i) = 0)

/-- Noise-free RS decode: return the message part when every syndrome is
zero, fail otherwise. -/
def rsDecodeMsg (nsym : Nat) (received : List Nat) : Option (List Nat) :=
  if rsSyndromesZero nsym received then some (received.take (received.length - nsym)) else none

/-! ## Byte-and-module pipeline of encode_frame / decode_frame

encode_frame (visual_encoder.py lines 187-219): truncate-or-pad the payload
to data_symbols, RS-encode, convert bytes to 2-bit module values (Balanced
mode) and write them into the non-reserved raster cells. frame_id and
total_frames reach the raster only through the metadata region
(_embed_metadata); they are never placed in the RS-coded symbol stream.

decode_frame (visual_decoder.py lines 384-421, steps 4-7): read module
values, regroup them into bytes, RS-decode, then parse frame_id /
total_frames / data_length out of the first 9 decoded payload bytes (the
source comment: simplified - actual would parse from reserved area; for now,
assume metadata is prepended) and slice the data as decoded[8 : 8+length].

decodeFrameSymbols receives the module stream; applying it directly to the
encoder output models the ideal noise-free channel in which rectification
and module sampling are exact — the most favorable case for the round-trip
claim. -/

/-- _data_to_modules: bytes to MSB-first bit string, grouped into
bits_per_module-wide palette indices, dropping a trailing partial group. -/
def dataToModules (bitsPerModule : Nat) (data : List Nat) : List Nat :=
  (fullChunks bitsPerModule (data.flatMap byteBits)).map bitsToNat

/-- _modules_to_data: module values back to bits, regrouped into bytes,
dropping a trailing partial byte. -/
def modulesToData (bitsPerModule : Nat) (modules : List Nat) : List Nat :=
  (fullChunks 8 (modules.flatMap (valueBits bitsPerModule))).map bitsToNat

/-- The RS-coded module stream of one visual frame in Balanced mode
(2 bits/module). frameId and totalFrames are parameters of encode_frame but
do not influence the symbol stream: they are only embedded into the reserved
metadata region of the raster (see embedMetadataWrites). -/
def encodeFrameSymbols (totalSymbols nsym : Nat) (data : List Nat)
    (frameId totalFrames : Nat) : List Nat :=
  let _ := frameId
  let _ := totalFrames
  dataToModules 2 (rsEncodeMsg nsym (prepPayload (totalSymbols - nsym) data))

structure DecodedFrame where
  frameId : Nat
  totalFrames : Nat
  data : List Nat
deriving DecidableEq

/-- Steps 5-7 of decode_frame on a received module stream (color_mode = 4,
so 1 bit -> 2 bits per module and RS decode, then metadata parse from the
decoded payload bytes themselves). -/
def decodeFrameSymbols (nsym : Nat) (modules : List Nat) : Option DecodedFrame :=
  let encoded := modulesToData 2 modules
  match rsDecodeMsg nsym encoded with
  | none => none
  | some decoded =>
    if decoded.length < 8 then none
    else
      some ⟨fromBytesBE (decoded.take 3), fromBytesBE ((decoded.drop 3).take 2),
        (decoded.drop 8).take (fromBytesBE ((decoded.drop 5).take 2))⟩

/-! ## Decoder statistics (visual_decoder.py, decode_frame and
get_success_rate)

decode_frame increments frames_attempted once on entry; each early return
(fewer than 3 corners, failed warp, RS failure, short decoded data) leaves
frames_successful unchanged; the single success path increments
frames_successful once. get_success_rate divides only when
frames_attempted is nonzero. -/

structure DecoderStats where
  framesAttempted : Nat
  framesSuccessful : Nat
deriving DecidableEq

/-- The outcome of one decode_frame call, abstracting the branch taken. -/
inductive DecodeOutcome
  | notDetected
  | warpFailed
  | rsFailed
  | metadataTooShort
  | success
deriving DecidableEq

/-- Effect of one decode_frame call on the decoder counters. -/
def decodeFrameStats (s : DecoderStats) (o : DecodeOutcome) : DecoderStats :=
  let s1 : DecoderStats := ⟨s.framesAttempted + 1, s.framesSuccessful⟩
  match o with
  | .success => ⟨s1.framesAttempted, s1.framesSuccessful + 1⟩
  | _ => s1

/-- get_success_rate: 0.0 when no frame was attempted, otherwise the ratio. -/
def getSuccessRate (s : DecoderStats) : Rat :=
  if s.framesAttempted = 0 then 0 else (s.framesSuccessful : Rat) / (s.framesAttempted : Rat)

/-- Counters of a freshly constructed VisualDecoder. -/
def initialStats : DecoderStats := ⟨0, 0⟩

/-! ## Audio encoder (audio_encoder.py)

Embedded at the default configuration: sample_rate = 48000,
num_subcarriers = 48, carrier_start = 2500.0, carrier_spacing = 250.0,
packet_duration = 0.05. The derived sample counts int(rate * duration) are
written as exact Nat divisions; at these defaults the float products round
down to the same integers (2400, 600, 240, 96). Audio samples are modelled
as real numbers; numpy complex exponentials become Complex.exp. -/

namespace AudioEncoder

def sampleRate : Nat := 48000

def numSubcarriers : Nat := 48

/-- int(sample_rate * packet_duration) with packet_duration = 0.05. -/
def samplesPerPacket : Nat := sampleRate * 5 / 100

/-- int(sample_rate * symbol_duration), symbol_duration = 0.05 / 4 = 0.0125. -/
def samplesPerSymbol : Nat := sampleRate * 125 / 10000

/-- int(sample_rate * 0.005): the 5 ms chirp preamble. -/
def preambleSamples : Nat := sampleRate * 5 / 1000

/-- int(sample_rate * 0.002): the 2 ms sync word. -/
def syncSamples : Nat := sampleRate * 2 / 1000

inductive ModulationType
  | BPSK
  | QPSK
  | QAM16
deriving DecidableEq

/-- Bits per constellation symbol (the enum value in the source). -/
def ModulationType.value : ModulationType → Nat
  | .BPSK => 1
  | .QPSK => 2
  | .QAM16 => 4

/-- carrier_freqs[i] = carrier_start + i * carrier_spacing. -/
noncomputable def carrierFreq (i : Nat) : ℝ := 2500 + i * 250

/-- carrier_waves[i][n] = exp(2j * pi * freq * (n / sample_rate)). -/
noncomputable def carrierWave (i n : Nat) : ℂ :=
  Complex.exp (((2 * Real.pi * carrierFreq i * ((n : ℝ) / sampleRate) : ℝ) : ℂ) * Complex.I)

/-- The payload bytes as one MSB-first bit string. -/
def bitString (bytes : List Nat) : List Nat := bytes.flatMap byteBits

/-- _bits_to_symbol: constellation mapping of one bits_per_symbol group. -/
noncomputable def bitsToSymbol (m : ModulationType) (bits : List Nat) : ℂ :=
  let v := bitsToNat bits
  match m with
  | .BPSK => if v = 0 then 1 else -1
  | .QPSK =>
    [1 + Complex.I, 1 - Complex.I, -1 + Complex.I, -1 - Complex.I].getD v 0 / (Real.sqrt 2 : ℂ)
  | .QAM16 =>
    (((v / 4 % 4 : Nat) * 2 - 3 : ℤ) + ((v % 4 : Nat) * 2 - 3 : ℤ) * Complex.I) /
      (Real.sqrt 10 : ℂ)

/-- _modulate_symbols: one complex symbol per subcarrier; subcarriers beyond
the bit string keep the 0 they were initialized with. -/
noncomputable def modulateSymbols (m : ModulationType) (bytes : List Nat) : List ℂ :=
  let bits := bitString bytes
  (List.range numSubcarriers).map (fun i =>
    if (i + 1) * m.value ≤ bits.length then
      bitsToSymbol m ((bits.drop (i * m.value)).take m.value)
    else 0)

/-- One raw OFDM output sample: sum over subcarriers of the real part of
symbol * carrier wave. -/
noncomputable def ofdmRawSample (symbols : List ℂ) (n : Nat) : ℝ :=
  (symbols.enum.map (fun p => (p.2 * carrierWave p.1 n).re)).sum

/-- The samples_per_symbol raw samples of one OFDM symbol. -/
noncomputable def ofdmRawList (symbols : List ℂ) : List ℝ :=
  (List.range samplesPerSymbol).map (ofdmRawSample symbols)

/-- np.max(np.abs(audio)) over a sample list (0 for the empty list). -/
noncomputable def maxAbs (l : List ℝ) : ℝ := (l.map (fun x => |x|)).foldr max 0

/-- _ofdm_modulate: raw samples normalized by their peak and scaled to 0.7.
Real division by zero is 0 in Lean; the all-zero raw signal therefore maps
to the all-zero output (Python would produce NaN there, but a raw OFDM
signal with any nonzero constellation point is not identically zero). -/
noncomputable def ofdmModulate (symbols : List ℂ) : List ℝ :=
  (ofdmRawList symbols).map (fun x => x / maxAbs (ofdmRawList symbols) * 0.7)

/-- np.hanning(len) at index k. -/
noncomputable def hannWindow (len k : Nat) : ℝ :=
  1 / 2 - 1 / 2 * Real.cos (2 * Real.pi * k / ((len : ℝ) - 1))

/-- _generate_preamble: 5 ms linear chirp from carrier_start to
carrier_freqs[-1], Hann-windowed, scaled by 0.8. -/
noncomputable def preambleSample (n : Nat) : ℝ :=
  Real.sin (2 * Real.pi *
      (2500 * ((n : ℝ) / sampleRate) +
        (carrierFreq (numSubcarriers - 1) - 2500) * ((n : ℝ) / sampleRate) ^ 2 /
          (2 * (5 / 1000)))) *
    hannWindow preambleSamples n * 0.8

noncomputable def preamble : List ℝ := (List.range preambleSamples).map preambleSample

/-- len(carrier_freqs[::4]): every 4th subcarrier is a pilot. -/
def numPilots : Nat := (numSubcarriers + 3) / 4

def barker7 : List Int := [1, 1, 1, -1, -1, 1, -1]

/-- _generate_sync_word: pilots (only the first len(sequence) of them) carry
sinusoids with phase 0 or pi from the Barker-7 sequence; the sum is divided
by the number of pilots and scaled by 0.6. -/
noncomputable def syncSample (n : Nat) : ℝ :=
  ((List.range (min numPilots barker7.length)).map (fun i =>
      Real.sin (2 * Real.pi * carrierFreq (4 * i) * ((n : ℝ) / sampleRate) +
        (if 0 < barker7.getD (i % barker7.length) 0 then 0 else Real.pi)))).sum /
      (numPilots : ℝ) * 0.6

noncomputable def sync : List ℝ := (List.range syncSamples).map syncSample

/-- _calculate_crc16 inner loop: 8 shift rounds with poly 0x1021 = 4129,
masked to 16 bits after each round. -/
def crcInner : Nat → Nat → Nat
  | 0, crc => crc
  | k + 1, crc =>
    crcInner k ((if crc / 32768 % 2 = 1 then Nat.xor (crc * 2) 4129 else crc * 2) % 65536)

/-- _calculate_crc16: init 0xFFFF, xor each byte into the high half. -/
def crc16 (data : List Nat) : Nat :=
  data.foldl (fun crc b => crcInner 8 (Nat.xor crc (b * 256))) 65535

/-- _encode_header: frame_id u24 BE, packet_seq u16 BE, payload_type & 0xFF,
then CRC-16 of the first 6 bytes as 2 BE bytes (8 bytes total). -/
def encodeHeader (frameId packetSeq payloadType : Nat) : List Nat :=
  let h6 := toBytesBE 3 frameId ++ toBytesBE 2 packetSeq ++ [payloadType % 256]
  h6 ++ toBytesBE 2 (crc16 h6)

/-- Final pad-or-truncate of encode_packet to exactly samples_per_packet. -/
noncomputable def padTruncate (target : Nat) (l : List ℝ) : List ℝ :=
  if l.length < target then l ++ List.replicate (target - l.length) 0 else l.take target

/-- The payload OFDM symbols: the payload in chunks of
num_subcarriers * bits_per_symbol / 8 bytes, the last chunk zero-padded. -/
noncomputable def payloadAudio (m : ModulationType) (payload : List Nat) : List ℝ :=
  let k := numSubcarriers * m.value / 8
  (List.range ((payload.length + k - 1) / k)).flatMap (fun i =>
    let chunk := (payload.drop (i * k)).take k
    ofdmModulate (modulateSymbols m (chunk ++ List.replicate (k - chunk.length) 0)))

/-- encode_packet before the final pad/truncate: preamble, sync word, two
header OFDM symbols (4 header bytes each), payload OFDM symbols. -/
noncomputable def packetBody (m : ModulationType) (payload : List Nat)
    (frameId packetSeq payloadType : Nat) : List ℝ :=
  preamble ++ sync ++
    ofdmModulate (modulateSymbols m ((encodeHeader frameId packetSeq payloadType).take 4)) ++
    ofdmModulate (modulateSymbols m
      (((encodeHeader frameId packetSeq payloadType).drop 4).take 4)) ++
    payloadAudio m payload

/-- encode_packet (audio_encoder.py lines 214-277). The float32 cast at the
end is the identity in the real-valued model. -/
noncomputable def encodePacket (m : ModulationType) (payload : List Nat)
    (frameId packetSeq payloadType : Nat) : List ℝ :=
  padTruncate samplesPerPacket (packetBody m payload frameId packetSeq payloadType)

end AudioEncoder

/-- The 9 metadata bytes of the spec scenario S5:
frame_id = 0x123456, total_frames = 0x07D0, data_length = 0x0400. -/
def sampleMetadata : List Nat := encodeMetadata 1193046 2000 1024

end HVATP

namespace HVATP

set_option maxRecDepth 100000
set_option maxHeartbeats 4000000

/-! # Theorems -/

theorem toBytesBE_length (w : Nat) : ∀ n, (toBytesBE w n).length = w := by
  induction w with
  | zero => intro n; rfl
  | succ w ih => intro n; simp [toBytesBE, ih]

theorem fromBytesBE_append_singleton (l : List Nat) (b : Nat) :
    fromBytesBE (l ++ [b]) = 256 * fromBytesBE l + b := by
  simp [fromBytesBE, List.foldl_append]

/-- Big-endian byte decoding inverts encoding on values in range. -/
theorem fromBytesBE_toBytesBE (w : Nat) : ∀ n, n < 256 ^ w →
    fromBytesBE (toBytesBE w n) = n := by
  induction w with
  | zero =>
    intro n h
    simp only [pow_zero, Nat.lt_one_iff] at h
    simp [h, toBytesBE, fromBytesBE]
  | succ w ih =>
    intro n h
    have hp : 256 ^ (w + 1) = 256 ^ w * 256 := pow_succ 256 w
    rw [toBytesBE, fromBytesBE_append_singleton, ih (n / 256) (by omega)]
    omega

/-! ## C4: frame metadata layout -/

/-- C4: for every frame_id (u24), total_frames (u16), data_length (u16), the
encoded metadata is exactly 9 bytes: frame_id as 3 big-endian bytes,
total_frames as 2, data_length as 2, then a 2-byte big-endian checksum equal
to the sum of the first 7 bytes mod 2^16; in particular frame_id = 0x123456,
total_frames = 0x07D0, data_length = 0x0400 yields checksum bytes 0x01 0x77. -/
theorem C4_metadata_format (frameId totalFrames dataLength : Nat)
    (h1 : frameId < 2 ^ 24) (h2 : totalFrames < 2 ^ 16) (h3 : dataLength < 2 ^ 16) :
    (encodeMetadata frameId totalFrames dataLength).length = 9 ∧
    encodeMetadata frameId totalFrames dataLength =
      toBytesBE 3 frameId ++ toBytesBE 2 totalFrames ++ toBytesBE 2 dataLength ++
        toBytesBE 2 ((toBytesBE 3 frameId ++ toBytesBE 2 totalFrames ++
          toBytesBE 2 dataLength).sum % 65536) ∧
    fromBytesBE (toBytesBE 3 frameId) = frameId ∧
    fromBytesBE (toBytesBE 2 totalFrames) = totalFrames ∧
    fromBytesBE (toBytesBE 2 dataLength) = dataLength ∧
    fromBytesBE (toBytesBE 2 ((toBytesBE 3 frameId ++ toBytesBE 2 totalFrames ++
        toBytesBE 2 dataLength).sum % 65536)) =
      (toBytesBE 3 frameId ++ toBytesBE 2 totalFrames ++ toBytesBE 2 dataLength).sum % 65536 ∧
    encodeMetadata 1193046 2000 1024 = [18, 52, 86, 7, 208, 4, 0, 1, 119] := by
  refine ⟨?_, ?_, ?_, ?_, ?_, ?_, by decide⟩
  · simp [encodeMetadata, List.length_append, toBytesBE_length]
  · simp [encodeMetadata]
  · exact fromBytesBE_toBytesBE 3 frameId (by norm_num at h1 ⊢; omega)
  · exact fromBytesBE_toBytesBE 2 totalFrames (by norm_num at h2 ⊢; omega)
  · exact fromBytesBE_toBytesBE 2 dataLength (by norm_num at h3 ⊢; omega)
  · exact fromBytesBE_toBytesBE 2 _ (by norm_num; omega)

/-- C4 witness: the theorem applied at the S5 scenario values. -/
theorem C4_metadata_format_witness :
    (encodeMetadata 1193046 2000 1024).length = 9 ∧
    encodeMetadata 1193046 2000 1024 =
      toBytesBE 3 1193046 ++ toBytesBE 2 2000 ++ toBytesBE 2 1024 ++
        toBytesBE 2 ((toBytesBE 3 1193046 ++ toBytesBE 2 2000 ++
          toBytesBE 2 1024).sum % 65536) ∧
    fromBytesBE (toBytesBE 3 1193046) = 1193046 ∧
    fromBytesBE (toBytesBE 2 2000) = 2000 ∧
    fromBytesBE (toBytesBE 2 1024) = 1024 ∧
    fromBytesBE (toBytesBE 2 ((toBytesBE 3 1193046 ++ toBytesBE 2 2000 ++
        toBytesBE 2 1024).sum % 65536)) =
      (toBytesBE 3 1193046 ++ toBytesBE 2 2000 ++ toBytesBE 2 1024).sum % 65536 ∧
    encodeMetadata 1193046 2000 1024 = [18, 52, 86, 7, 208, 4, 0, 1, 119] :=
  C4_metadata_format 1193046 2000 1024 (by norm_num) (by norm_num) (by norm_num)

/-! ## C7: reserved-area predicates -/

/-- C7 counterexample: at module_count = 200 the in-range position
(x, y) = (0, 10) is reserved by both encoder and decoder (the metadata clause
x < 20 covers it), but the claim characterization, whose metadata clause
requires 10 <= x, excludes it — so the claimed exact characterization fails. -/
theorem C7_counterexample :
    VisualEncoder.isReservedArea 200 0 10 = true ∧
    VisualDecoder.isReservedArea 200 0 10 = true ∧
    claimReservedChar 200 0 10 = false ∧ 0 < 200 ∧ 10 < 200 := by decide

/-- C7 amended: for every module_count and position, the encoder and decoder
reserved predicates agree, and both hold exactly on the three 10x10 corner
finder blocks, timing row/column 6, and the metadata block x < 20,
10 <= y < 18 (no lower bound on x). -/
theorem C7_reserved_agree_amended (M x y : Nat) :
    VisualEncoder.isReservedArea M x y = VisualDecoder.isReservedArea M x y ∧
    (VisualEncoder.isReservedArea M x y = true ↔ reservedSpecAmended M x y) := by
  refine ⟨rfl, ?_⟩
  unfold VisualEncoder.isReservedArea reservedSpecAmended
  split_ifs <;> simp_all <;> tauto

/-! ## C6: stamped data_length -/

/-- C6 counterexample: with module_count = 20, Balanced mode, ecc = 0.35 the
capacity is total_symbols = 75, parity = 26, data_symbols = 49; the sequence
encoder splits a 1-byte payload into the single chunk [7], but encode_frame
stamps data_length = 49 (the padded length), not the actual chunk length 1,
because len(data) is taken after the truncate-or-pad step. -/
theorem C6_counterexample :
    calculateTotalSymbols 2 20 = 75 ∧ rsParityCount 75 (mkRat 7 20) = 26 ∧
    chunkData 49 [7] = [[7]] ∧ stampedDataLength 49 [7] = 49 ∧ (49 : Nat) ≠ 1 := by
  refine ⟨rfl, by decide, by decide, by decide, by decide⟩

/-- C6 amended: the data_length stamped by encode_frame is always the
post-padding (or post-truncation) length, which equals data_symbols for
every input — the actual pre-padding chunk length is not recorded. -/
theorem C6_stamped_length_amended (dataSymbols : Nat) (data : List Nat) :
    stampedDataLength dataSymbols data = dataSymbols := by
  unfold stampedDataLength prepPayload
  split
  · simp only [List.length_take]
    omega
  · simp only [List.length_append, List.length_replicate]
    omega

/-! ## C8: capacity error behavior -/

/-- C8 counterexample: a 50-byte input against data_symbols = 49 (the
module_count = 20, Balanced, ecc = 0.35 configuration) is truncated and
encoding proceeds; no CapacityExceeded error is signaled (the source
docstring itself says the data will be truncated if too large). -/
theorem C8_counterexample :
    encodeFrameCapacityCheck 49 (List.replicate 50 7) = Except.ok (List.replicate 49 7) ∧
    ¬ ∃ e, encodeFrameCapacityCheck 49 (List.replicate 50 7) = Except.error e := by
  have h : encodeFrameCapacityCheck 49 (List.replicate 50 7) =
      Except.ok (List.replicate 49 7) := by
    norm_num [encodeFrameCapacityCheck, prepPayload, List.take_replicate]
  refine ⟨h, ?_⟩
  rintro ⟨e, he⟩
  rw [h] at he
  cases he

/-- C8 amended: for every input strictly larger than data_symbols,
encode_frame proceeds with the input truncated to its first data_symbols
bytes instead of signaling CapacityExceeded. -/
theorem C8_truncates_amended (dataSymbols : Nat) (data : List Nat)
    (h : data.length > dataSymbols) :
    encodeFrameCapacityCheck dataSymbols data = Except.ok (data.take dataSymbols) := by
  simp [encodeFrameCapacityCheck, prepPayload, h]

/-- C8 witness: the amended theorem at the 50-byte input. -/
theorem C8_truncates_amended_witness :
    (List.replicate 50 (7 : Nat)).length > 49 ∧
    encodeFrameCapacityCheck 49 (List.replicate 50 7) =
      Except.ok ((List.replicate 50 (7 : Nat)).take 49) :=
  ⟨by decide, C8_truncates_amended 49 (List.replicate 50 7) (by decide)⟩

/-! ## C9: encoder/decoder parity mismatch -/

/-- C9 counterexample: the claim says the decoder RS code equals the
encoder one only when the mode is Balanced; but at module_count = 10 (where
capacity is zero) both sides have 0 parity symbols in Robust mode as well,
so the only-when direction fails. -/
theorem C9_counterexample :
    encoderParitySymbols EncodingMode.ROBUST 10 (mkRat 7 20) = decoderParitySymbols 10 (mkRat 7 20) ∧
    EncodingMode.ROBUST ≠ EncodingMode.BALANCED := by decide

/-- C9 amended: the decoder fixes its parity count from a capacity computed
with 2 bits/module regardless of color_mode, so it equals the encoder parity
count for every module_count and ecc_level when the encoder mode is
Balanced; in Robust and HighDensity modes it differs whenever the truncated
products differ — in particular at the default module_count = 200,
ecc = 0.35 (1745 and 5236 versus the decoder 3491) — though degenerate
configurations such as module_count = 10 make them coincide. -/
theorem C9_parity_amended :
    (∀ (M : Int) (ecc : Rat),
      encoderParitySymbols EncodingMode.BALANCED M ecc = decoderParitySymbols M ecc) ∧
    encoderParitySymbols EncodingMode.ROBUST 200 (mkRat 7 20) ≠ decoderParitySymbols 200 (mkRat 7 20) ∧
    encoderParitySymbols EncodingMode.HIGH_DENSITY 200 (mkRat 7 20) ≠
      decoderParitySymbols 200 (mkRat 7 20) ∧
    encoderParitySymbols EncodingMode.ROBUST 200 (mkRat 7 20) = 1745 ∧
    encoderParitySymbols EncodingMode.HIGH_DENSITY 200 (mkRat 7 20) = 5236 ∧
    decoderParitySymbols 200 (mkRat 7 20) = 3491 :=
  ⟨fun _ _ => rfl, by decide, by decide, by decide, by decide, by decide⟩

/-! ## C10: decoder statistics -/

theorem statsFold_invariant (outcomes : List DecodeOutcome) :
    ∀ s : DecoderStats, s.framesSuccessful ≤ s.framesAttempted →
      (outcomes.foldl decodeFrameStats s).framesSuccessful ≤
        (outcomes.foldl decodeFrameStats s).framesAttempted := by
  induction outcomes with
  | nil => intro s h; exact h
  | cons o t ih =>
    intro s h
    refine ih _ ?_
    cases o <;> simp [decodeFrameStats] <;> omega

/-- C10: after any sequence of decode_frame calls starting from a fresh
decoder, get_success_rate returns 0 when frames_attempted = 0 and otherwise
frames_successful / frames_attempted, always within [0, 1]; and each call
increments frames_attempted exactly once and frames_successful at most once,
exactly on the success outcome. -/
theorem C10_success_rate (outcomes : List DecodeOutcome) :
    ((outcomes.foldl decodeFrameStats initialStats).framesAttempted = 0 →
      getSuccessRate (outcomes.foldl decodeFrameStats initialStats) = 0) ∧
    0 ≤ getSuccessRate (outcomes.foldl decodeFrameStats initialStats) ∧
    getSuccessRate (outcomes.foldl decodeFrameStats initialStats) ≤ 1 ∧
    (∀ (s : DecoderStats) (o : DecodeOutcome),
      (decodeFrameStats s o).framesAttempted = s.framesAttempted + 1 ∧
      s.framesSuccessful ≤ (decodeFrameStats s o).framesSuccessful ∧
      (decodeFrameStats s o).framesSuccessful ≤ s.framesSuccessful + 1 ∧
      ((decodeFrameStats s o).framesSuccessful = s.framesSuccessful + 1 ↔
        o = DecodeOutcome.success)) := by
  have hinv : (outcomes.foldl decodeFrameStats initialStats).framesSuccessful ≤
      (outcomes.foldl decodeFrameStats initialStats).framesAttempted :=
    statsFold_invariant outcomes initialStats (Nat.le_refl 0)
  refine ⟨?_, ?_, ?_, ?_⟩
  · intro h; simp [getSuccessRate, h]
  · unfold getSuccessRate
    split
    · exact le_refl 0
    · positivity
  · unfold getSuccessRate
    split
    · exact zero_le_one
    · rename_i hne
      rw [div_le_one (by exact_mod_cast Nat.pos_of_ne_zero hne)]
      exact_mod_cast hinv
  · intro s o
    cases o <;> simp [decodeFrameStats]

/-! ## C2: center finder pattern -/

/-- C2: at module_count = 200 (the default, > 150) _add_finder_patterns does
not return a raster at all: the half-size center copy finder[:5, :5] cannot
broadcast into the full-size 10x10 central slice, so numpy raises ValueError
and encode_frame fails; at module_count = 150 (not > 150) the center step is
skipped and the raster is produced. -/
theorem C2_center_finder_fails (f : Frame) (white black : RGB) :
    addFinderPatterns 200 f white black = none ∧
    (addFinderPatterns 150 f white black).isSome = true :=
  ⟨rfl, rfl⟩

/-! ## C5: metadata embedding coverage -/

/-- C5 counterexample: taking the S5 metadata bytes, the packed bit stream
has 72 bits, but bit 20 (and every later bit) is never written to the frame:
once y_start reaches 18 the guarded writes all fail, so only the first 20
bits fit the 10x8 metadata region as 2x2 blocks. -/
theorem C5_counterexample :
    (metadataBits sampleMetadata).length = 72 ∧
    ¬ ∀ i, i < 72 → ∃ w ∈ embedMetadataWrites sampleMetadata, w.bitIndex = i := by
  refine ⟨by decide, ?_⟩
  intro h
  obtain ⟨w, hw, hbit⟩ := h 20 (by norm_num)
  have hall : ∀ v ∈ embedMetadataWrites sampleMetadata, v.bitIndex < 20 := by decide
  have h20 := hall w hw
  rw [hbit] at h20
  exact absurd h20 (by norm_num)

/-- C5 amended: for every 9-byte metadata value, the embedding writes
exactly the first 20 of the 72 metadata bits, each as a full 2x2 block of
the palette color for that bit at x = 10 + 2*(i mod 5),
y = 10 + 2*(i div 5); bits 20..71 produce no write at all because their
y_start is at least 18. -/
theorem C5_embedding_amended (md : List Nat) (h : md.length = 9) :
    embedMetadataWrites md = (List.range 20).flatMap (expectedBlock md) := by
  obtain ⟨b0, md, rfl⟩ := List.exists_of_length_succ md h
  simp only [List.length_cons, Nat.succ_inj] at h
  obtain ⟨b1, md, rfl⟩ := List.exists_of_length_succ md h
  simp only [List.length_cons, Nat.succ_inj] at h
  obtain ⟨b2, md, rfl⟩ := List.exists_of_length_succ md h
  simp only [List.length_cons, Nat.succ_inj] at h
  obtain ⟨b3, md, rfl⟩ := List.exists_of_length_succ md h
  simp only [List.length_cons, Nat.succ_inj] at h
  obtain ⟨b4, md, rfl⟩ := List.exists_of_length_succ md h
  simp only [List.length_cons, Nat.succ_inj] at h
  obtain ⟨b5, md, rfl⟩ := List.exists_of_length_succ md h
  simp only [List.length_cons, Nat.succ_inj] at h
  obtain ⟨b6, md, rfl⟩ := List.exists_of_length_succ md h
  simp only [List.length_cons, Nat.succ_inj] at h
  obtain ⟨b7, md, rfl⟩ := List.exists_of_length_succ md h
  simp only [List.length_cons, Nat.succ_inj] at h
  obtain ⟨b8, md, rfl⟩ := List.exists_of_length_succ md h
  simp only [List.length_cons, Nat.succ_inj] at h
  rw [List.length_eq_zero] at h
  subst h
  rfl

/-- C5 witness: the amended theorem at the S5 metadata bytes. -/
theorem C5_embedding_amended_witness :
    sampleMetadata.length = 9 ∧
    embedMetadataWrites sampleMetadata = (List.range 20).flatMap (expectedBlock sampleMetadata) :=
  ⟨by decide, C5_embedding_amended sampleMetadata (by decide)⟩

/-! ## C1: visual round-trip -/

/-- C1: the noise-free round trip does not return the frame metadata. With
module_count = 20, Balanced mode, ecc = 0.35 (total_symbols = 75,
parity = 26, data_symbols = 49), encoding payload [1, 2, 3] with
frame_id = 5, total_frames = 1 and decoding the very module stream the
encoder produced (an ideal channel, the most favorable case) succeeds but
returns frame_id = 0x010203 = 66051, total_frames = 0x0000 and empty data:
the decoder parses metadata out of the leading payload bytes (its source
comments that it assumes metadata is prepended), while the encoder embeds
metadata only in the reserved raster region — the symbol stream does not
depend on frame_id or total_frames at all. -/
theorem C1_roundtrip_metadata_divergence :
    calculateTotalSymbols 2 20 = 75 ∧ rsParityCount 75 (mkRat 7 20) = 26 ∧
    decodeFrameSymbols 26 (encodeFrameSymbols 75 26 [1, 2, 3] 5 1) =
      some ⟨66051, 0, []⟩ ∧
    (66051 ≠ 5 ∧ (0 : Nat) ≠ 1 ∧ ([] : List Nat) ≠ [1, 2, 3]) ∧
    (∀ frameId totalFrames : Nat,
      encodeFrameSymbols 75 26 [1, 2, 3] frameId totalFrames =
        encodeFrameSymbols 75 26 [1, 2, 3] 5 1) :=
  ⟨rfl, by decide, by decide, by decide, fun _ _ => rfl⟩

/-! ## C3: audio packet length and amplitude -/

namespace AudioEncoder

theorem hannWindow_nonneg (len k : Nat) : 0 ≤ hannWindow len k := by
  have h := Real.cos_le_one (2 * Real.pi * k / ((len : ℝ) - 1))
  unfold hannWindow
  linarith

theorem hannWindow_le_one (len k : Nat) : hannWindow len k ≤ 1 := by
  have h := Real.neg_one_le_cos (2 * Real.pi * k / ((len : ℝ) - 1))
  unfold hannWindow
  linarith

theorem preamble_abs_le (s : ℝ) (hs : s ∈ preamble) : |s| ≤ 0.8 := by
  unfold preamble at hs
  obtain ⟨n, _, rfl⟩ := List.mem_map.mp hs
  unfold preambleSample
  rw [abs_mul, abs_mul]
  have h1 : |Real.sin (2 * Real.pi *
      (2500 * ((n : ℝ) / sampleRate) +
        (carrierFreq (numSubcarriers - 1) - 2500) * ((n : ℝ) / sampleRate) ^ 2 /
          (2 * (5 / 1000))))| ≤ 1 :=
    abs_le.mpr ⟨Real.neg_one_le_sin _, Real.sin_le_one _⟩
  have h2 : |hannWindow preambleSamples n| ≤ 1 := by
    rw [abs_of_nonneg (hannWindow_nonneg _ _)]
    exact hannWindow_le_one _ _
  have h3 : |(0.8 : ℝ)| = 0.8 := by norm_num
  rw [h3]
  nlinarith [abs_nonneg (hannWindow preambleSamples n),
    abs_nonneg (Real.sin (2 * Real.pi *
      (2500 * ((n : ℝ) / sampleRate) +
        (carrierFreq (numSubcarriers - 1) - 2500) * ((n : ℝ) / sampleRate) ^ 2 /
          (2 * (5 / 1000)))))]

theorem list_sum_abs_le (l : List ℝ) (c : ℝ) (h : ∀ x ∈ l, |x| ≤ c) :
    |l.sum| ≤ c * l.length := by
  induction l with
  | nil => simp
  | cons a t ih =>
    have ha := h a (List.mem_cons_self a t)
    have ht := ih (fun x hx => h x (List.mem_cons_of_mem a hx))
    simp only [List.sum_cons, List.length_cons]
    push_cast
    calc |a + t.sum| ≤ |a| + |t.sum| := abs_add a t.sum
      _ ≤ c + c * t.length := add_le_add ha ht
      _ = c * ((t.length : ℝ) + 1) := by ring

theorem sync_abs_le (s : ℝ) (hs : s ∈ sync) : |s| ≤ 1 := by
  unfold sync at hs
  obtain ⟨n, _, rfl⟩ := List.mem_map.mp hs
  unfold syncSample
  have hsum : |((List.range (min numPilots barker7.length)).map (fun i =>
      Real.sin (2 * Real.pi * carrierFreq (4 * i) * ((n : ℝ) / sampleRate) +
        (if 0 < barker7.getD (i % barker7.length) 0 then 0 else Real.pi)))).sum| ≤
      1 * ((List.range (min numPilots barker7.length)).map (fun i =>
      Real.sin (2 * Real.pi * carrierFreq (4 * i) * ((n : ℝ) / sampleRate) +
        (if 0 < barker7.getD (i % barker7.length) 0 then 0 else Real.pi)))).length := by
    refine list_sum_abs_le _ 1 ?_
    intro x hx
    obtain ⟨i, _, rfl⟩ := List.mem_map.mp hx
    exact abs_le.mpr ⟨Real.neg_one_le_sin _, Real.sin_le_one _⟩
  have hlen : ((List.range (min numPilots barker7.length)).map (fun i =>
      Real.sin (2 * Real.pi * carrierFreq (4 * i) * ((n : ℝ) / sampleRate) +
        (if 0 < barker7.getD (i % barker7.length) 0 then 0 else Real.pi)))).length = 7 := by
    simp [numPilots, numSubcarriers, barker7]
  rw [hlen] at hsum
  rw [abs_mul, abs_div]
  have h6 : |(0.6 : ℝ)| = 0.6 := by norm_num
  have hp : |((numPilots : Nat) : ℝ)| = 12 := by norm_num [numPilots, numSubcarriers]
  rw [h6, hp]
  norm_num at hsum ⊢
  nlinarith [abs_nonneg (((List.range (min numPilots barker7.length)).map (fun i =>
      Real.sin (2 * Real.pi * carrierFreq (4 * i) * ((n : ℝ) / sampleRate) +
        (if 0 < barker7.getD (i % barker7.length) 0 then 0 else Real.pi)))).sum)]

theorem maxAbs_cons (a : ℝ) (t : List ℝ) : maxAbs (a :: t) = max |a| (maxAbs t) := rfl

theorem maxAbs_nonneg (l : List ℝ) : 0 ≤ maxAbs l := by
  induction l with
  | nil => exact le_refl 0
  | cons a t ih => exact le_trans ih (by rw [maxAbs_cons]; exact le_max_right _ _)

theorem le_maxAbs (l : List ℝ) (x : ℝ) (hx : x ∈ l) : |x| ≤ maxAbs l := by
  induction l with
  | nil => simp at hx
  | cons a t ih =>
    rw [maxAbs_cons]
    rcases List.mem_cons.mp hx with rfl | hx
    · exact le_max_left _ _
    · exact le_trans (ih hx) (le_max_right _ _)

theorem ofdmModulate_abs_le (symbols : List ℂ) (s : ℝ) (hs : s ∈ ofdmModulate symbols) :
    |s| ≤ 0.7 := by
  unfold ofdmModulate at hs
  obtain ⟨x, hx, rfl⟩ := List.mem_map.mp hs
  have hxm : |x| ≤ maxAbs (ofdmRawList symbols) := le_maxAbs _ x hx
  have h0 : 0 ≤ maxAbs (ofdmRawList symbols) := maxAbs_nonneg _
  rcases eq_or_lt_of_le h0 with h | h
  · have hx0 : x = 0 := by
      rw [← h] at hxm
      exact abs_nonpos_iff.mp hxm
    simp [hx0]
    norm_num
  · rw [abs_mul, abs_div, abs_of_pos h]
    have hdiv : |x| / maxAbs (ofdmRawList symbols) ≤ 1 := (div_le_one h).mpr hxm
    have h7 : |(0.7 : ℝ)| = 0.7 := by norm_num
    rw [h7]
    nlinarith [abs_nonneg x, div_nonneg (abs_nonneg x) (le_of_lt h)]

theorem padTruncate_length (target : Nat) (l : List ℝ) :
    (padTruncate target l).length = target := by
  unfold padTruncate
  split
  · simp only [List.length_append, List.length_replicate]
    omega
  · simp only [List.length_take]
    omega

theorem mem_padTruncate (target : Nat) (l : List ℝ) (s : ℝ)
    (hs : s ∈ padTruncate target l) : s ∈ l ∨ s = 0 := by
  unfold padTruncate at hs
  split at hs
  · rcases List.mem_append.mp hs with h | h
    · exact Or.inl h
    · exact Or.inr (List.eq_of_mem_replicate h)
  · exact Or.inl (List.take_subset _ _ hs)

/-- C3: for every payload byte string (including the empty one), every
modulation type, and every header field combination, encode_packet returns
exactly samples_per_packet samples (2400 at the default configuration) and
every sample has absolute value at most 1: the preamble is scaled to 0.8,
the sync word to at most 7/12 * 0.6, every OFDM symbol is peak-normalized to
0.7, and the padding is zero. -/
theorem C3_packet_length_amplitude (m : ModulationType) (payload : List Nat)
    (frameId packetSeq payloadType : Nat) :
    (encodePacket m payload frameId packetSeq payloadType).length = samplesPerPacket ∧
    samplesPerPacket = 2400 ∧
    ∀ s ∈ encodePacket m payload frameId packetSeq payloadType, |s| ≤ 1 := by
  refine ⟨padTruncate_length _ _, rfl, ?_⟩
  intro s hs
  rcases mem_padTruncate _ _ _ hs with hs | rfl
  · unfold packetBody at hs
    simp only [List.mem_append] at hs
    rcases hs with ((((h | h) | h) | h) | h)
    · exact le_trans (preamble_abs_le s h) (by norm_num)
    · exact sync_abs_le s h
    · exact le_trans (ofdmModulate_abs_le _ s h) (by norm_num)
    · exact le_trans (ofdmModulate_abs_le _ s h) (by norm_num)
    · unfold payloadAudio at h
      simp only [List.mem_flatMap] at h
      obtain ⟨i, _, hmem⟩ := h
      exact le_trans (ofdmModulate_abs_le _ s hmem) (by norm_num)
  · simp

end AudioEncoder

end HVATP
